import Mathlib

/-!
# Verification of the flywheel-gear-dev-mcp fetch/normalize/cache pipeline

Shallow embedding of `src/flywheel_gear_mcp/fetcher.py`, `parsers.py` and
`tools.py` (Python), together with proofs settling the frozen claims about
the natural-language specification of the repository.

Conventions of the embedding:
* Python exceptions are modelled with `Except Exc`; a function that can raise
  returns `Except Exc α`, and `.error e` marks the exception propagating to
  the caller.
* Machine-level details that no claim depends on (exact wording of `httpx`
  exception messages, `strftime` rendering, float formatting of the KB size)
  are modelled by explicit deterministic functions, documented at their
  definitions.
* Network I/O is modelled by an oracle `http : String → Nat → Outcome`
  giving the outcome of fetching a URL at a given 0-indexed attempt.
* The four content normalizers of `parsers.py` enter the fetcher as function
  parameters (`Normalizers`); the HTML normalizer itself is embedded
  separately at DOM level further below.
-/

set_option autoImplicit false

namespace FlywheelGearMcp

/-! ## Exceptions and HTTP outcomes -/

/-- Python exceptions that the fetcher code can raise or propagate:
`ValueError` (fetcher.py line 100), `httpx.HTTPStatusError` (re-raised at
line 160) and `httpx.RequestError`/`httpx.TimeoutException` (re-raised at
line 167). -/
inductive Exc where
  | valueError (msg : String)
  | indexError (msg : String)
  | httpStatusError (code : Nat)
  | requestError
  deriving Repr, DecidableEq

/-- `str(exception)` as used when building the placeholder document
(fetcher.py lines 59 and 65).  For `ValueError` the message is exactly the
constructed string; the wording httpx uses for its exceptions is not
modelled (no claim depends on it), only that it is some deterministic
rendering of the failure. -/
def excMessage : Exc → String
  | .valueError m => m
  | .indexError m => m
  | .httpStatusError c => "HTTP status error " ++ toString c
  | .requestError => "request error"

/-- Outcome of one HTTP GET of a URL (`client.get` + `raise_for_status`,
fetcher.py lines 147-148): success with a body, an HTTP error status, or a
connection/timeout error. -/
inductive Outcome where
  | ok (text : String)
  | status (code : Nat)
  | reqError
  deriving Repr, DecidableEq

/-- The network oracle: outcome of fetching a URL at a given (0-indexed)
attempt number. -/
abbrev Http := String → Nat → Outcome

/-! ## `_fetch_with_retry` (fetcher.py lines 131-169) -/

/-- Result of a `_fetch_with_retry` call together with its observable
effects: the returned value (`str | None`, or a raised exception), the
number of HTTP attempts actually performed, and the list of backoff delays
slept (in seconds, in order). -/
structure FetchTrace where
  res : Except Exc (Option String)
  attempts : Nat
  sleeps : List Nat
  deriving Repr

/-- The body of the `for attempt in range(max_retries)` loop of
`_fetch_with_retry`, fetcher.py lines 144-169.  The loop is driven by the
number of `remaining` iterations of `range(max_retries)` (so the recursion
is structural); the invariant `attempt + remaining = maxRetries` holds at
every call reachable from `fetchWithRetry`.  `attempts` and `sleeps`
accumulate the observable effects: HTTP calls performed and backoff delays
slept.  Falling out of the loop returns `None` (line 169). -/
def fetchLoop (http : Http) (url : String) (maxRetries : Nat) :
    Nat → Nat → Nat → List Nat → FetchTrace
  | 0, _, attempts, sleeps => ⟨.ok none, attempts, sleeps⟩
  | remaining + 1, attempt, attempts, sleeps =>
    match http url attempt with
    | .ok t => ⟨.ok (some t), attempts + 1, sleeps⟩
    | .status c =>
      if c = 404 ∨ c = 403 ∨ c = 401 then
        -- "Don't retry client errors" (lines 153-155)
        ⟨.ok none, attempts + 1, sleeps⟩
      else if attempt < maxRetries - 1 then
        fetchLoop http url maxRetries remaining (attempt + 1) (attempts + 1)
          (sleeps ++ [2 ^ attempt])
      else
        -- attempts exhausted on a retryable HTTP error: `raise` (line 160)
        ⟨.error (.httpStatusError c), attempts + 1, sleeps⟩
    | .reqError =>
      if attempt < maxRetries - 1 then
        fetchLoop http url maxRetries remaining (attempt + 1) (attempts + 1)
          (sleeps ++ [2 ^ attempt])
      else
        -- attempts exhausted on a connection/timeout error: `raise` (line 167)
        ⟨.error .requestError, attempts + 1, sleeps⟩

/-- `_fetch_with_retry(client, url, max_retries=3)`. -/
def fetchWithRetry (http : Http) (url : String) (maxRetries : Nat := 3) :
    FetchTrace :=
  fetchLoop http url maxRetries maxRetries 0 0 []

/-! ## Source specifications and documents -/

/-- A source entry of `config.yaml` as read by `_fetch_source` and
`fetch_all_docs`.  Optional fields model `dict.get` with its default applied
at each read site, exactly as in the source (`tool_name` is the only
required key). -/
structure SourceCfg where
  tool_name : String
  display_name : Option String := none
  description : Option String := none
  urls : List String := []
  /-- the `type` key; `source.get("type", "html")` at fetcher.py line 85 -/
  srcType : Option String := none
  strip_deprecated : Option Bool := none
  filter_sections : Option (List String) := none
  deriving Repr, DecidableEq

/-- A cached document, i.e. the per-source dict built at fetcher.py
lines 121-128 (success) or lines 58-66 (placeholder).  `fetched_at` is the
`datetime.now()` timestamp, modelled as a natural number supplied by the
caller; `size` is `len(combined_content)` — Python's `len` on `str`, i.e.
the number of code points, not bytes. -/
structure Doc where
  content : String
  display_name : String
  description : String
  urls : List String
  fetched_at : Nat
  size : Nat
  error : Option String := none
  deriving Repr, DecidableEq

/-- The four normalizer entry points of `parsers.py` as seen from
`_fetch_source` (string to string, possibly raising).  The HTML normalizer
is embedded concretely at DOM level below; at the fetcher level the
normalizers are parameters because `_fetch_source` only pipes strings
through them. -/
structure Normalizers where
  html : String → String → Bool → Except Exc String
  xml : String → Option (List String) → Except Exc String
  json : String → Except Exc String
  gitlab : String → Bool → Except Exc String

/-- The per-URL fetch loop of `_fetch_source` (fetcher.py lines 92-97):
URLs are fetched sequentially; a `None` result is skipped, a text result is
appended, and a raised exception propagates out of `_fetch_source`. -/
def fetchUrls (http : Http) : List String → Except Exc (List String)
  | [] => .ok []
  | u :: rest =>
    match (fetchWithRetry http u).res with
    | .error e => .error e
    | .ok none => fetchUrls http rest
    | .ok (some c) => (fetchUrls http rest).map (fun cs => c :: cs)

/-- The `doc_type` dispatch of `_fetch_source` (fetcher.py lines 105-114);
unknown types pass the content through unmodified. -/
def parseOne (N : Normalizers) (docType url0 : String) (strip : Bool)
    (fs : Option (List String)) (content : String) : Except Exc String :=
  if docType = "html" then N.html content url0 strip
  else if docType = "xml" then N.xml content fs
  else if docType = "json" then N.json content
  else if docType = "gitlab_repo" then N.gitlab content strip
  else .ok content

/-- `_fetch_source(source)` (fetcher.py lines 74-128).  `now` models
`datetime.now()`; exceptions raised by the per-URL loop or by a parser
propagate (the `.error` arms). -/
def fetchSource (N : Normalizers) (http : Http) (now : Nat)
    (source : SourceCfg) : Except Exc Doc :=
  match fetchUrls http source.urls with
  | .error e => .error e
  | .ok contents =>
    if contents = [] then
      -- `raise ValueError(f"No content fetched for {tool_name}")` (line 100)
      .error (.valueError ("No content fetched for " ++ source.tool_name))
    else
      -- `urls[0]` at line 106 is only evaluated when some content was
      -- fetched, in which case `urls` is nonempty.  `source.get("type",
      -- "html")` and `source.get("strip_deprecated", True)` are the `getD`
      -- defaults.
      match contents.mapM
          (parseOne N (source.srcType.getD "html") (source.urls.headD "")
            (source.strip_deprecated.getD true) source.filter_sections) with
      | .error e => .error e
      | .ok parsed =>
        .ok { content := String.intercalate "\n\n---\n\n" parsed,
              display_name := source.display_name.getD source.tool_name,
              description := source.description.getD "",
              urls := source.urls,
              fetched_at := now,
              size := (String.intercalate "\n\n---\n\n" parsed).length }

/-! ## `fetch_all_docs` (fetcher.py lines 19-71) and the cache -/

/-- The in-memory catalog `_docs_cache`, as an association list keyed by
`tool_name` (configurations with duplicate tool names, which a Python dict
would overwrite, do not occur in any claim). -/
abbrev Cache := List (String × Doc)

/-- The placeholder document built for a failed source (fetcher.py
lines 58-66). -/
def placeholderDoc (now : Nat) (source : SourceCfg) (e : Exc) : Doc :=
  { content := "# Error\n\nFailed to fetch documentation: " ++ excMessage e,
    display_name := source.display_name.getD source.tool_name,
    description := source.description.getD "",
    urls := source.urls,
    fetched_at := now,
    size := 0,
    error := some (excMessage e) }

/-- The cache-building loop of `fetch_all_docs` (fetcher.py lines 52-68):
`asyncio.gather(..., return_exceptions=True)` preserves input order and
captures raised exceptions as values, so the new cache is a per-source map
over the results. -/
def fetchAllDocs (N : Normalizers) (http : Http) (now : Nat)
    (sources : List SourceCfg) : Cache :=
  sources.map (fun s =>
    (s.tool_name,
      match fetchSource N http now s with
      | .error e => placeholderDoc now s e
      | .ok d => d))

/-- `get_cached_doc(tool_name)` (fetcher.py lines 172-181). -/
def getCachedDoc (cache : Cache) (toolName : String) : Option Doc :=
  (cache.find? (fun p => p.1 == toolName)).map (fun p => p.2)

/-- The initial value of `_docs_cache` (fetcher.py line 16), before the
first refresh completes. -/
def initialCache : Cache := []

/-! ## Cooperative scheduling of a refresh cycle (claim C2)

The server runs on a single asyncio event loop: code interleaves only at
suspension points (`await`).  `fetch_all_docs` suspends at
`await asyncio.gather(*tasks, ...)` (line 49); the spawned `_fetch_source`
tasks never touch `_docs_cache`; and the cache rebuild (lines 52-68,
`_docs_cache = {}` followed by the fill loop) contains no `await`, so it
executes as one atomic step.  Readers (`get_cached_doc`,
`get_all_cached_docs`) are synchronous functions that can only run between
these steps.  We model the cycle as the sequence of atomic steps acting on
the published cache variable and quantify over every inter-step point. -/

/-- The atomic steps of one `fetch_all_docs` call, in order: loading the
configuration and spawning the fetch tasks (lines 41-49, no cache write);
the suspension while the gathered fetch tasks run (no task writes the
cache); and the synchronous rebuild block (lines 52-68). -/
inductive RefreshStep where
  | loadAndSpawn
  | awaitGather
  | rebuildCache
  deriving Repr, DecidableEq

/-- Effect of each atomic step on the `_docs_cache` global. -/
def refreshStepEffect (N : Normalizers) (http : Http) (now : Nat)
    (sources : List SourceCfg) : RefreshStep → Cache → Cache
  | .loadAndSpawn, c => c
  | .awaitGather, c => c
  | .rebuildCache, _ => fetchAllDocs N http now sources

/-- One refresh cycle as its sequence of atomic steps. -/
def refreshProgram : List RefreshStep :=
  [.loadAndSpawn, .awaitGather, .rebuildCache]

/-- The value of `_docs_cache` that a reader scheduled after the first `k`
atomic steps of a refresh cycle observes. -/
def cacheAfter (N : Normalizers) (http : Http) (now : Nat)
    (sources : List SourceCfg) (old : Cache) (k : Nat) : Cache :=
  (refreshProgram.take k).foldl
    (fun c st => refreshStepEffect N http now sources st c) old

/-! ## Reference semantics of `get_all_cached_docs` (claim C10)

`get_all_cached_docs` returns `_docs_cache.copy()` — a fresh dict object
holding the same entries, not the cache object itself.  To state what
caller-side mutation of the returned dict can and cannot affect, we give the
dicts explicit identities in a small heap: objects are addressed by index,
and the module-global `_docs_cache` is one distinguished address. -/

/-- A heap of dict objects; `cacheRef` is the address of the module-global
`_docs_cache`. -/
structure Heap where
  objs : List Cache
  cacheRef : Nat
  deriving Repr

/-- Dereference an address. -/
def heapGet (h : Heap) (r : Nat) : Cache := h.objs.getD r []

/-- `get_all_cached_docs()` under the heap model: `.copy()` allocates a
fresh dict with the same entries and returns its (new) address; the cache
address itself is not handed out. -/
def getAllCachedDocsH (h : Heap) : Heap × Nat :=
  (⟨h.objs ++ [heapGet h h.cacheRef], h.cacheRef⟩, h.objs.length)

/-- A caller-side in-place mutation (adding, removing or replacing entries)
of the dict at address `r`, for an arbitrary entry transformation `f`. -/
def mutateAt (h : Heap) (r : Nat) (f : Cache → Cache) : Heap :=
  ⟨h.objs.set r (f (heapGet h r)), h.cacheRef⟩

/-! ## The tool-invocation layer (`tools.py`), read side -/

/-- One-decimal rendering of `size / 1024` as in
`f"{size_kb:.1f}"` (tools.py lines 85-86 and 145-146).  Exact float
formatting is immaterial to every claim; it is modelled by a deterministic
integer rendering with one decimal digit. -/
def fmtKB (size : Nat) : String :=
  let n10 := size * 10 / 1024
  toString (n10 / 10) ++ "." ++ toString (n10 % 10)

/-- Rendering of the `fetched_at` timestamp (`strftime`, tools.py line 81),
modelled as a deterministic rendering of the modelled timestamp. -/
def fmtFetchedAt (t : Nat) : String := toString t

/-- `execute_tool(tool_name, arguments)` (tools.py lines 48-99).  The
`arguments` dict is unused by the source.  A missing cache entry produces
the worded not-found message of line 61; otherwise the formatted document
is assembled exactly as in lines 63-99. -/
def executeTool (cache : Cache) (toolName : String) : String :=
  match getCachedDoc cache toolName with
  | none =>
    "# Error\n\nDocumentation for '" ++ toolName ++
      "' not found in cache. Please restart the server."
  | some doc =>
    let header := ["# " ++ doc.display_name, ""]
    let desc := if doc.description = "" then []
      else ["*" ++ doc.description ++ "*", ""]
    let meta := ["## Metadata", "",
      "- **Source URL(s):** " ++ String.intercalate ", " doc.urls,
      "- **Fetched:** " ++ fmtFetchedAt doc.fetched_at,
      "- **Size:** " ++ fmtKB doc.size ++ " KB", ""]
    let warn := match doc.error with
      | some e => ["⚠️ **Warning:** Partial or failed fetch - " ++ e, ""]
      | none => []
    String.intercalate "\n"
      (header ++ desc ++ meta ++ warn ++ ["---", "", doc.content])

/-- The per-entry block of `execute_list_docs_tool` (tools.py
lines 136-153). -/
def listDocsEntry (toolName : String) (doc : Doc) : List String :=
  ["## `" ++ toolName ++ "`", "**" ++ doc.display_name ++ "**"] ++
  (if doc.description = "" then []
   else ["\n*" ++ doc.description ++ "*"]) ++
  ["\n- URLs: " ++ toString doc.urls.length,
   "- Size: " ++ fmtKB doc.size ++ " KB"] ++
  (match doc.error with
   | some e => ["- ⚠️ Status: Error - " ++ e]
   | none => ["- ✓ Status: Successfully cached"]) ++
  [""]

/-- `execute_list_docs_tool(arguments)` (tools.py lines 115-154), applied
to the entries returned by `get_all_cached_docs` (order = dict insertion
order = cache order). -/
def executeListDocs (cache : Cache) : String :=
  let header := ["# Available Flywheel Documentation Sources\n"]
  if cache = [] then
    String.intercalate "\n" (header ++
      ["*No documentation currently cached. Server may still be starting up.*\n"])
  else
    String.intercalate "\n" (header ++
      ["Total sources: " ++ toString cache.length ++ "\n"] ++
      (cache.map (fun p => listDocsEntry p.1 p.2)).flatten)

/-! ## The HTML normalizer (`parsers.py`)

`parse_html` works on the tree produced by `BeautifulSoup(content,
"html.parser")`.  The embedding operates directly on that DOM tree: a
`Node` is either a tag element (with its name, its multi-valued `class`
attribute, its `id` and `role` attributes — the only attributes the source
reads — and its children) or a text node (`NavigableString`).  The whole
document is the soup object, modelled as an element named `[document]`
whose children are the top-level nodes.

BeautifulSoup's mutating passes (`find_all` materialises its result list,
then the loop body decomposes nodes) are modelled as recursive left-to-right
traversals returning the surviving tree.  The two behave identically on
every tree in which a decomposed node is not itself revisited by the same
pass with a still-matching text (a decomposed bs4 node has empty text and
is skipped by the pattern checks), which covers all trees appearing in the
claims.  Self-removal of the selected root element itself (possible in the
source if the selected main-content node is its own match) is not modelled:
the roots arising in the claims are `main`, `body` or the document. -/

inductive Node where
  | el (name : String) (cls : List String) (id role : String)
       (children : List Node)
  | txt (s : String)

mutual

/-- `element.get_text()`: concatenation of all descendant text. -/
def getText : Node → String
  | .txt s => s
  | .el _ _ _ _ kids => getTexts kids

def getTexts : List Node → String
  | [] => ""
  | n :: rest => getText n ++ getTexts rest

end

/-- The deprecated-section patterns (parsers.py lines 172-176). -/
def deprecatedPatterns : List String := ["deprecat", "legacy", "obsolete"]

/-- `pattern.search(s)` for a literal pattern compiled with
`re.IGNORECASE`: case-insensitive substring containment. -/
def patMatch (pat s : String) : Bool :=
  decide (List.IsInfix (pat.toList.map Char.toLower)
    (s.toList.map Char.toLower))

/-- `s` matches at least one of the three deprecated patterns. -/
def matchesAnyPat (s : String) : Bool :=
  deprecatedPatterns.any (fun p => patMatch p s)

/-- Python's `s.startswith(pre)`. -/
def pyStartsWith (s pre : String) : Bool :=
  decide (List.IsPrefix pre.toList s.toList)

/-- Exception propagation (`try`-free Python control flow: an exception in
a subexpression aborts the enclosing computation). -/
def exBind {α β : Type} (x : Except Exc α) (f : α → Except Exc β) :
    Except Exc β :=
  match x with
  | .error e => .error e
  | .ok a => f a

/-- First-hit choice, as in `select_one` and `find` fallbacks. -/
def opFirst {α : Type} (x y : Option α) : Option α :=
  match x with
  | some a => some a
  | none => y

/-- The heading tag names searched by
`soup.find_all(["h1", ..., "h6"])` (parsers.py line 181). -/
def headingNames : List String := ["h1", "h2", "h3", "h4", "h5", "h6"]

/-- The container tag names of the container and badge passes
(parsers.py lines 187 and 199). -/
def containerNames : List String := ["div", "section", "article"]

/-- The badge candidate tag names (parsers.py line 196). -/
def badgeNames : List String := ["span", "div", "p"]

/-- The non-content tags removed up front (parsers.py lines 26-29). -/
def unwantedNames : List String :=
  ["script", "style", "nav", "header", "footer", "aside"]

/-- `int(name[1])` (parsers.py lines 208 and 213): `name[1]` raises
`IndexError` on a one-character name, and `int` raises `ValueError` when
that character is not a digit. -/
def headingLevelOf (name : String) : Except Exc Nat :=
  match name.toList with
  | _ :: c :: _ =>
    if c.isDigit then .ok (c.toNat - 48)
    else .error (.valueError
      ("invalid literal for int() with base 10: " ++ String.singleton c))
  | _ => .error (.indexError "string index out of range")

/-- `_remove_deprecated_sections`, heading step (parsers.py lines 179-184)
together with `_remove_section` (lines 206-220), over one sibling list.

In mode `none` the list is scanned for headings (`h1`..`h6`) whose text
matches the pattern; a non-matching element is kept and its children are
scanned recursively.  A match switches to mode `some level`, which is the
sibling loop of `_remove_section`: a sibling tag whose name starts with
`"h"` has its level parsed with `int(name[1])` (raising on names such as
`hr`); a parsed level `≤ level` ends the removal (the breaking node is
re-scanned in mode `none`, as the source would process it as its own
`find_all` item); any other tag sibling is decomposed; a `NavigableString`
sibling has no `decompose` attribute (`hasattr` check, line 217) and is
kept. -/
def headingPassList (pat : String) : Option Nat → List Node → Except Exc (List Node)
  | _, [] => .ok []
  | some level, .el name cls id role kids :: rest =>
    if pyStartsWith name "h" then
      match headingLevelOf name with
      | .error e => .error e
      | .ok l =>
        if l ≤ level then headingPassList pat none (.el name cls id role kids :: rest)
        else headingPassList pat (some level) rest
    else headingPassList pat (some level) rest
  | some level, .txt s :: rest =>
    exBind (headingPassList pat (some level) rest) (fun r => .ok (.txt s :: r))
  | none, .el name cls id role kids :: rest =>
    if headingNames.contains name && patMatch pat (getTexts kids) then
      match headingLevelOf name with
      | .error e => .error e
      | .ok level => headingPassList pat (some level) rest
    else
      exBind (headingPassList pat none kids) (fun kids1 =>
        exBind (headingPassList pat none rest) (fun rest1 =>
          .ok (.el name cls id role kids1 :: rest1)))
  | none, .txt s :: rest =>
    exBind (headingPassList pat none rest) (fun r => .ok (.txt s :: r))
  termination_by mode l => (sizeOf l, match mode with | some _ => 1 | none => 0)

/-- `_remove_deprecated_sections`, container step (parsers.py
lines 186-193): a `div`/`section`/`article` whose class list or id matches
the pattern is decomposed. -/
def containerPassList (pat : String) : List Node → List Node
  | [] => []
  | .el name cls id role kids :: rest =>
    if containerNames.contains name &&
        (cls.any (fun c => patMatch pat c) || patMatch pat id) then
      containerPassList pat rest
    else .el name cls id role (containerPassList pat kids) ::
      containerPassList pat rest
  | .txt s :: rest => .txt s :: containerPassList pat rest

/-- Whether some `span`/`div`/`p` descendant reachable without crossing a
`div`/`section`/`article` is a deprecated badge (short matching text,
parsers.py lines 196-197); its `find_parent(["div", "section",
"article"])` is then the container enclosing this list. -/
def nearBadgeList (pat : String) : List Node → Bool
  | [] => false
  | .txt _ :: rest => nearBadgeList pat rest
  | .el name _ _ _ kids :: rest =>
    (badgeNames.contains name && patMatch pat (getTexts kids) &&
      decide ((getTexts kids).length < 50)) ||
    (!containerNames.contains name && nearBadgeList pat kids) ||
    nearBadgeList pat rest

/-- `_remove_deprecated_sections`, badge step (parsers.py lines 195-201):
the nearest `div`/`section`/`article` ancestor of a badge is decomposed;
a badge with no such ancestor is left alone (`if parent:`). -/
def badgePassList (pat : String) : List Node → List Node
  | [] => []
  | .el name cls id role kids :: rest =>
    if containerNames.contains name && nearBadgeList pat kids then
      badgePassList pat rest
    else .el name cls id role (badgePassList pat kids) ::
      badgePassList pat rest
  | .txt s :: rest => .txt s :: badgePassList pat rest

/-- The `for pattern in deprecated_patterns` loop of
`_remove_deprecated_sections` (parsers.py lines 179-201): per pattern, the
heading step, then the container step, then the badge step. -/
def removeDeprecatedList : List String → List Node → Except Exc (List Node)
  | [], kids => .ok kids
  | pat :: ps, kids =>
    exBind (headingPassList pat none kids) (fun k1 =>
      removeDeprecatedList ps (badgePassList pat (containerPassList pat k1)))

/-- `_remove_deprecated_sections(soup)` (parsers.py lines 163-203) applied
to the selected main-content node: its child list undergoes the three
passes for each pattern in turn. -/
def removeDeprecatedSections : Node → Except Exc Node
  | .txt s => .ok (.txt s)
  | .el name cls id role kids =>
    exBind (removeDeprecatedList deprecatedPatterns kids)
      (fun ks => .ok (.el name cls id role ks))

mutual

/-- Specification-side predicate (used to state the amended claim C6): the
node and its descendants trigger none of the three removal passes for any
deprecated pattern — it is not a heading with matching text, not a
container with matching class or id, not a short-text badge, and all its
children are likewise clean. -/
def cleanNode : Node → Bool
  | .txt _ => true
  | .el name cls id _ kids =>
    !(headingNames.contains name && matchesAnyPat (getTexts kids)) &&
    !(containerNames.contains name &&
      (cls.any (fun c => matchesAnyPat c) || matchesAnyPat id)) &&
    !(badgeNames.contains name && matchesAnyPat (getTexts kids) &&
      decide ((getTexts kids).length < 50)) &&
    cleanKids kids

/-- All nodes of the list are `cleanNode`. -/
def cleanKids : List Node → Bool
  | [] => true
  | n :: rest => cleanNode n && cleanKids rest

end

/-- Specification-side predicate (amended claim C6): an element node whose
tag name does not start with `"h"` — the siblings `_remove_section`
deletes without inspecting a heading level. -/
def isNonHeadingEl : Node → Bool
  | .el name _ _ _ _ => !(pyStartsWith name "h")
  | .txt _ => false

/-- The removal of non-content elements (parsers.py lines 25-29): every
`script`/`style`/`nav`/`header`/`footer`/`aside` element anywhere in the
tree is decomposed. -/
def decomposeAllList (names : List String) : List Node → List Node
  | [] => []
  | .el name cls id role kids :: rest =>
    if names.contains name then decomposeAllList names rest
    else .el name cls id role (decomposeAllList names kids) ::
      decomposeAllList names rest
  | .txt s :: rest => .txt s :: decomposeAllList names rest

/-- The same removal from the soup root (the root `[document]` object is
not a removable tag). -/
def decomposeAll (names : List String) : Node → Node
  | .txt s => .txt s
  | .el name cls id role kids => .el name cls id role (decomposeAllList names kids)

mutual

/-- First element (document order) satisfying `p`, searching a node and its
descendants. -/
def findFirstNode (p : Node → Bool) : Node → Option Node
  | .txt _ => none
  | .el name cls id role kids =>
    if p (.el name cls id role kids) then some (.el name cls id role kids)
    else findFirstList p kids

def findFirstList (p : Node → Bool) : List Node → Option Node
  | [] => none
  | n :: rest => opFirst (findFirstNode p n) (findFirstList p rest)

end

/-- The main-content selectors tried in priority order by
`soup.select_one` (parsers.py lines 32-43): `main`, `article`,
`[role="main"]`, `.content`, `.documentation`, `#content`. -/
def mainSelectors : List (Node → Bool) :=
  [fun n => match n with | .el name _ _ _ _ => name = "main" | _ => false,
   fun n => match n with | .el name _ _ _ _ => name = "article" | _ => false,
   fun n => match n with | .el _ _ _ role _ => role = "main" | _ => false,
   fun n => match n with | .el _ cls _ _ _ => cls.contains "content" | _ => false,
   fun n => match n with | .el _ cls _ _ _ => cls.contains "documentation" | _ => false,
   fun n => match n with | .el _ _ id _ _ => id = "content" | _ => false]

/-- `select_one` over the selector priority list; the soup root (named
`[document]`, no class/id/role) matches none of the selectors, so searching
from the root is equivalent to searching the document. -/
def selectFirst : List (Node → Bool) → Node → Option Node
  | [], _ => none
  | p :: ps, soup => opFirst (findFirstNode p soup) (selectFirst ps soup)

/-- Main-content selection with fallbacks (parsers.py lines 31-47): first
matching selector, else the first `body` element, else the soup itself. -/
def selectMainContent (soup : Node) : Node :=
  Option.getD
    (opFirst (selectFirst mainSelectors soup)
      (findFirstNode
        (fun n => match n with | .el name _ _ _ _ => name = "body" | _ => false)
        soup))
    soup

/-! ## Whitespace cleanup (parsers.py lines 56-58)

`re.sub(r"\n\s*\n\s*\n+", "\n\n", markdown)` followed by
`markdown.strip()`.

The pattern is three whitespace-separated newlines.  Under the regex
engine's leftmost scan with greedy backtracking, a match starts at a
position `i` with `s[i] = \n` if and only if the maximal whitespace run
beginning at `i` contains at least three newlines: the first `\n` consumes
`s[i]`; `\s*\n` backtracks its greedy `\s*` to end at a newline of the run;
and the final `\n+` must also sit inside the run.  When it matches, the
first `\s*\n` settles on the second-to-last newline of the run (greedy,
backtracked from the last), and the trailing `\n+` then takes the last
newline of the run — which is followed by no further newline — so the whole
match extends exactly through the last newline of the run.  Substitution
replaces it by `"\n\n"` and the scan resumes after it, i.e. at the
remaining non-newline whitespace tail of the run.

Consequently `re.sub` rewrites each maximal whitespace run that contains at
least three newlines into: the run's non-newline prefix, then `"\n\n"`,
then the run's non-newline suffix after its last newline; runs with at most
two newlines are unchanged.  `collapseRunsGo` below implements exactly
this per-run rewriting with a single structural scan. -/

/-- Python's `\s` (and `str.strip` whitespace) for text strings: ASCII
whitespace plus the Unicode whitespace code points. -/
def isPyWS (c : Char) : Bool :=
  decide (c.val = 9 ∨ c.val = 10 ∨ c.val = 11 ∨ c.val = 12 ∨ c.val = 13 ∨
    c.val = 28 ∨ c.val = 29 ∨ c.val = 30 ∨ c.val = 31 ∨ c.val = 32 ∨
    c.val = 0x85 ∨ c.val = 0xa0 ∨ c.val = 0x1680 ∨
    (0x2000 ≤ c.val ∧ c.val ≤ 0x200a) ∨ c.val = 0x2028 ∨ c.val = 0x2029 ∨
    c.val = 0x202f ∨ c.val = 0x205f ∨ c.val = 0x3000)

/-- Rewriting of one maximal whitespace run `w` (see the derivation above):
with three or more newlines it becomes its non-newline prefix, one blank
line, and its non-newline suffix; otherwise it is unchanged. -/
def emitRun (w : List Char) : List Char :=
  if 3 ≤ w.count '\n' then
    w.takeWhile (fun c => !(c = '\n')) ++ '\n' :: '\n' ::
      (w.reverse.takeWhile (fun c => !(c = '\n'))).reverse
  else w

/-- Single scan splitting the text into maximal whitespace runs (the
accumulator holds the current run, reversed) and rewriting each with
`emitRun`. -/
def collapseRunsGo (acc : List Char) : List Char → List Char
  | [] => emitRun acc.reverse
  | c :: cs =>
    if isPyWS c then collapseRunsGo (c :: acc) cs
    else emitRun acc.reverse ++ c :: collapseRunsGo [] cs

/-- `re.sub(r"\n\s*\n\s*\n+", "\n\n", s)` (parsers.py line 57). -/
def collapseBlankRuns (s : String) : String :=
  ⟨collapseRunsGo [] s.toList⟩

/-- `str.strip()` (parsers.py line 58), at character-list level: drop
whitespace from the front, then (via reversal) from the back. -/
def stripChars (l : List Char) : List Char :=
  ((l.dropWhile isPyWS).reverse.dropWhile isPyWS).reverse

/-- `str.strip()` (parsers.py line 58). -/
def pyStrip (s : String) : String :=
  ⟨stripChars s.toList⟩

/-- The next two characters are both newlines (used to state the
blank-line property). -/
def startsNN : List Char → Bool
  | [] => false
  | [_] => false
  | c :: d :: _ => decide (c = '\n') && decide (d = '\n')

/-- The text contains three consecutive newlines somewhere, i.e. a run of
two or more blank lines. -/
def has3 : List Char → Bool
  | [] => false
  | c :: t => (decide (c = '\n') && startsNN t) || has3 t

/-- Neither the first nor the last character is whitespace. -/
def noEdgeWS (l : List Char) : Bool :=
  (match l.head? with
   | some c => !isPyWS c
   | none => true) &&
  (match l.getLast? with
   | some c => !isPyWS c
   | none => true)

/-! ## `parse_html` and `parse_gitlab_repo` -/

/-- `parse_html(content, url, strip_deprecated)` (parsers.py lines 12-60),
over the parsed DOM of the content.  The `url` parameter of the source is
accepted but never read by the function body, so it has no counterpart
here.  `mdF` is the `markdownify` conversion (external library; only the
string it returns matters, so it enters as a parameter). -/
def parseHtml (mdF : Node → String) (soup : Node) (strip : Bool) :
    Except Exc String :=
  exBind
    (if strip then
      removeDeprecatedSections (selectMainContent (decomposeAll unwantedNames soup))
     else .ok (selectMainContent (decomposeAll unwantedNames soup)))
    (fun m => .ok (pyStrip (collapseBlankRuns (mdF m))))

/-- `parse_gitlab_repo(content, strip_deprecated)` (parsers.py
lines 143-157): delegates to `parse_html` with an empty context URL (which
`parse_html` ignores). -/
def parseGitlabRepo (mdF : Node → String) (soup : Node) (strip : Bool) :
    Except Exc String :=
  parseHtml mdF soup strip

/-! ## Concrete oracles and inputs used by the theorems below -/

/-- Pass-through normalizers: used for scenarios whose `type` key is not one
of the four dispatched content types, so that the normalizer functions are
never invoked by `parseOne`; also a convenient instantiation when a claim
quantifies over the normalizers. -/
def passNormalizers : Normalizers :=
  { html := fun c _ _ => .ok c,
    xml := fun c _ => .ok c,
    json := fun c => .ok c,
    gitlab := fun c _ => .ok c }

/-- Oracle: `u1` succeeds on its first attempt, every other URL returns
HTTP 500 on every attempt. -/
def httpOkThenFail : Http := fun url _ =>
  if url = "u1" then .ok "content A" else .status 500

/-- Oracle: every URL returns HTTP 500 on every attempt. -/
def httpAlways500 : Http := fun _ _ => .status 500

/-- Oracle: every URL returns HTTP 404 on every attempt. -/
def httpAlways404 : Http := fun _ _ => .status 404

/-- Oracle: every URL immediately serves a two-character body whose UTF-8
encoding is three bytes (`é` is two bytes). -/
def httpAccent : Http := fun _ _ => .ok "és"

/-- A source with two URLs and a content type outside the dispatch table
(content passes through unmodified). -/
def srcTwoUrls : SourceCfg :=
  { tool_name := "twodocs", urls := ["u1", "u2"], srcType := some "text" }

/-- A source with one URL and a pass-through content type. -/
def srcOneUrl : SourceCfg :=
  { tool_name := "onedoc", urls := ["u"], srcType := some "text" }

/-- The document produced by aggregating `srcOneUrl` against `httpAccent`. -/
def accentDoc : Doc :=
  { content := "és", display_name := "onedoc", description := "",
    urls := ["u"], fetched_at := 0, size := 2 }

/-- Stand-in for the external `markdownify` conversion: the claims never
depend on the markdown it renders, only on the string passing through the
whitespace cleanup, so plain text extraction suffices as the oracle. -/
def mdModel : Node → String := getText

/-- The parsed DOM of
`<body><h2>Deprecated API</h2><hr/><p>current docs</p></body>`: a
deprecated heading whose section contains a horizontal rule. -/
def c3Soup : Node :=
  .el "[document]" [] "" ""
    [.el "body" [] "" ""
      [.el "h2" [] "" "" [.txt "Deprecated API"],
       .el "hr" [] "" "" [],
       .el "p" [] "" "" [.txt "current docs"]]]

/-- The `body` element of `c3Soup` (what the selector fallback picks). -/
def c3Body : Node :=
  .el "body" [] "" ""
    [.el "h2" [] "" "" [.txt "Deprecated API"],
     .el "hr" [] "" "" [],
     .el "p" [] "" "" [.txt "current docs"]]

/-- A selected main-content element whose deprecated level-2 heading is
followed by a bare text sibling, a paragraph, the next level-2 heading and
its content. -/
def c6MainCounter : Node :=
  .el "main" [] "" ""
    [.el "h2" [] "" "" [.txt "Deprecated Feature"],
     .txt "stray text",
     .el "p" [] "" "" [.txt "old body"],
     .el "h2" [] "" "" [.txt "Next Section"],
     .el "p" [] "" "" [.txt "kept body"]]

/-- A minimal page for exercising the whitespace cleanup: one body with one
text node. -/
def c8Soup : Node :=
  .el "[document]" [] "" "" [.el "body" [] "" "" [.txt "hello"]]

/-- A markdownify oracle whose rendered markdown contains exactly two
consecutive blank lines (three newlines). -/
def c8MdTwoBlank : Node → String := fun _ => "x\n\n\ny"

/-- A sample successful document for the heap-model witness. -/
def sampleDoc : Doc :=
  { content := "# Docs", display_name := "Sample", description := "",
    urls := ["u"], fetched_at := 0, size := 6 }

/-- A one-object heap whose cache holds a single entry. -/
def sampleHeap : Heap := ⟨[[("sample", sampleDoc)]], 0⟩

deriving instance DecidableEq for Except

/-! ## Helper lemmas (shared across claims) -/

theorem exBind_ok {α β : Type} (a : α) (f : α → Except Exc β) :
    exBind (.ok a) f = f a := rfl

theorem exBind_error {α β : Type} (e : Exc) (f : α → Except Exc β) :
    exBind (.error e : Except Exc α) f = .error e := rfl

theorem opFirst_some {α : Type} (a : α) (y : Option α) :
    opFirst (some a) y = some a := rfl

theorem opFirst_none {α : Type} (y : Option α) :
    opFirst none y = y := rfl

theorem patMatch_false (p s : String) (hmem : p ∈ deprecatedPatterns)
    (h : matchesAnyPat s = false) : patMatch p s = false := by
  unfold matchesAnyPat at h
  rw [List.any_eq_false] at h
  exact Bool.eq_false_iff.mpr (fun hc => (h p hmem) hc)

theorem cleanKids_cons (n : Node) (l : List Node) :
    cleanKids (n :: l) = (cleanNode n && cleanKids l) := by
  rw [cleanKids]

theorem cleanKids_append (a b : List Node) :
    cleanKids (a ++ b) = (cleanKids a && cleanKids b) := by
  induction a with
  | nil => rw [List.nil_append, cleanKids, Bool.true_and]
  | cons n rest ih =>
    rw [List.cons_append, cleanKids_cons, cleanKids_cons, ih, Bool.and_assoc]

theorem cleanKids_of_forall (l : List Node)
    (h : ∀ n ∈ l, cleanNode n = true) : cleanKids l = true := by
  induction l with
  | nil => rw [cleanKids]
  | cons n rest ih =>
    rw [cleanKids_cons, h n (List.mem_cons_self n rest),
      ih (fun m hm => h m (List.mem_cons_of_mem n hm)), Bool.and_self]

/-- On a clean sibling list the heading pass is the identity. -/
theorem headingPass_clean_id (p : String) (hmem : p ∈ deprecatedPatterns) :
    ∀ l : List Node, cleanKids l = true → headingPassList p none l = .ok l
  | [], _ => by rw [headingPassList]
  | .txt s :: rest, hcl => by
    rw [cleanKids_cons, Bool.and_eq_true] at hcl
    rw [headingPassList, headingPass_clean_id p hmem rest hcl.2, exBind_ok]
  | .el name cls id role kids :: rest, hcl => by
    rw [cleanKids_cons, Bool.and_eq_true] at hcl
    obtain ⟨hhead, hrest⟩ := hcl
    simp only [cleanNode, Bool.and_eq_true, Bool.not_eq_true'] at hhead
    obtain ⟨⟨⟨h1, _h2⟩, _h3⟩, hkids⟩ := hhead
    have hcond : (headingNames.contains name && patMatch p (getTexts kids))
        = false := by
      cases hn : headingNames.contains name with
      | false => rw [Bool.false_and]
      | true =>
        rw [hn, Bool.true_and] at h1
        rw [Bool.true_and, patMatch_false p _ hmem h1]
    rw [headingPassList, hcond, if_neg Bool.false_ne_true,
      headingPass_clean_id p hmem kids hkids, exBind_ok,
      headingPass_clean_id p hmem rest hrest, exBind_ok]

/-- On a clean sibling list the container pass is the identity. -/
theorem containerPass_clean_id (p : String) (hmem : p ∈ deprecatedPatterns) :
    ∀ l : List Node, cleanKids l = true → containerPassList p l = l
  | [], _ => by rw [containerPassList]
  | .txt s :: rest, hcl => by
    rw [cleanKids_cons, Bool.and_eq_true] at hcl
    rw [containerPassList, containerPass_clean_id p hmem rest hcl.2]
  | .el name cls id role kids :: rest, hcl => by
    rw [cleanKids_cons, Bool.and_eq_true] at hcl
    obtain ⟨hhead, hrest⟩ := hcl
    simp only [cleanNode, Bool.and_eq_true, Bool.not_eq_true'] at hhead
    obtain ⟨⟨⟨_h1, h2⟩, _h3⟩, hkids⟩ := hhead
    have hcond : (containerNames.contains name &&
        (cls.any (fun c => patMatch p c) || patMatch p id)) = false := by
      cases hn : containerNames.contains name with
      | false => rw [Bool.false_and]
      | true =>
        rw [hn, Bool.true_and] at h2
        rw [Bool.or_eq_false_iff] at h2
        rw [Bool.true_and, Bool.or_eq_false_iff]
        refine ⟨?_, patMatch_false p _ hmem h2.2⟩
        rw [List.any_eq_false]
        intro c hc
        have hcf : matchesAnyPat c = false :=
          Bool.eq_false_iff.mpr (List.any_eq_false.mp h2.1 c hc)
        rw [patMatch_false p _ hmem hcf]
        exact Bool.false_ne_true
    rw [containerPassList, hcond, if_neg Bool.false_ne_true,
      containerPass_clean_id p hmem kids hkids,
      containerPass_clean_id p hmem rest hrest]

/-- A clean list holds no badge reachable without crossing a container. -/
theorem nearBadge_clean_false (p : String) (hmem : p ∈ deprecatedPatterns) :
    ∀ l : List Node, cleanKids l = true → nearBadgeList p l = false
  | [], _ => by rw [nearBadgeList]
  | .txt s :: rest, hcl => by
    rw [cleanKids_cons, Bool.and_eq_true] at hcl
    rw [nearBadgeList, nearBadge_clean_false p hmem rest hcl.2]
  | .el name cls id role kids :: rest, hcl => by
    rw [cleanKids_cons, Bool.and_eq_true] at hcl
    obtain ⟨hhead, hrest⟩ := hcl
    simp only [cleanNode, Bool.and_eq_true, Bool.not_eq_true'] at hhead
    obtain ⟨⟨⟨_h1, _h2⟩, h3⟩, hkids⟩ := hhead
    have hbadge : (badgeNames.contains name && patMatch p (getTexts kids) &&
        decide ((getTexts kids).length < 50)) = false := by
      cases hn : badgeNames.contains name with
      | false => rw [Bool.false_and, Bool.false_and]
      | true =>
        rw [hn, Bool.true_and] at h3
        rw [Bool.and_eq_false_iff] at h3
        cases h3 with
        | inl hma =>
          rw [Bool.true_and, patMatch_false p _ hmem hma, Bool.false_and]
        | inr hlen =>
          rw [hlen, Bool.and_false]
    rw [nearBadgeList, hbadge, Bool.false_or,
      nearBadge_clean_false p hmem kids hkids, Bool.and_false,
      Bool.false_or, nearBadge_clean_false p hmem rest hrest]

/-- On a clean sibling list the badge pass is the identity. -/
theorem badgePass_clean_id (p : String) (hmem : p ∈ deprecatedPatterns) :
    ∀ l : List Node, cleanKids l = true → badgePassList p l = l
  | [], _ => by rw [badgePassList]
  | .txt s :: rest, hcl => by
    rw [cleanKids_cons, Bool.and_eq_true] at hcl
    rw [badgePassList, badgePass_clean_id p hmem rest hcl.2]
  | .el name cls id role kids :: rest, hcl => by
    rw [cleanKids_cons, Bool.and_eq_true] at hcl
    obtain ⟨hhead, hrest⟩ := hcl
    have hkids : cleanKids kids = true := by
      simp only [cleanNode, Bool.and_eq_true] at hhead
      exact hhead.2
    have hcond : (containerNames.contains name && nearBadgeList p kids)
        = false := by
      rw [nearBadge_clean_false p hmem kids hkids, Bool.and_false]
    rw [badgePassList, hcond, if_neg Bool.false_ne_true,
      badgePass_clean_id p hmem kids hkids,
      badgePass_clean_id p hmem rest hrest]

/-- On a clean sibling list the whole per-pattern loop is the identity. -/
theorem removeDeprecated_clean_id (ps : List String)
    (hps : ∀ p ∈ ps, p ∈ deprecatedPatterns) (l : List Node)
    (hcl : cleanKids l = true) : removeDeprecatedList ps l = .ok l := by
  induction ps with
  | nil => rw [removeDeprecatedList]
  | cons p rest ih =>
    have hp := hps p (List.mem_cons_self p rest)
    rw [removeDeprecatedList, headingPass_clean_id p hp l hcl, exBind_ok,
      containerPass_clean_id p hp l hcl, badgePass_clean_id p hp l hcl,
      ih (fun q hq => hps q (List.mem_cons_of_mem p hq))]

/-- A non-retryable status on some iteration of the retry loop returns
`None` at once: one HTTP call on this iteration, no sleep, no recursion. -/
theorem fetchLoop_nonretryable (http : Http) (url : String)
    (maxRetries rem attempt attempts : Nat) (sleeps : List Nat) (c : Nat)
    (h0 : http url attempt = .status c) (hc : c = 404 ∨ c = 403 ∨ c = 401) :
    fetchLoop http url maxRetries (rem + 1) attempt attempts sleeps =
      ⟨.ok none, attempts + 1, sleeps⟩ := by
  unfold fetchLoop
  rw [h0]
  simp only [if_pos hc]

/-- `_fetch_with_retry` on a URL whose first attempt yields a non-retryable
status (404/403/401) returns `None` after exactly one attempt with no
backoff sleep. -/
theorem fetchWithRetry_nonretryable (http : Http) (url : String) (c : Nat)
    (h0 : http url 0 = .status c) (hc : c = 404 ∨ c = 403 ∨ c = 401) :
    fetchWithRetry http url = ⟨.ok none, 1, []⟩ :=
  fetchLoop_nonretryable http url 3 2 0 0 [] c h0 hc

/-- If every URL of the list fails non-retryably on its first attempt, the
per-URL loop of `_fetch_source` completes with no content collected. -/
theorem fetchUrls_all_nonretryable (http : Http) (urls : List String)
    (hall : ∀ u ∈ urls, ∃ c, http u 0 = .status c ∧
      (c = 404 ∨ c = 403 ∨ c = 401)) :
    fetchUrls http urls = .ok [] := by
  induction urls with
  | nil => rfl
  | cons u rest ih =>
    obtain ⟨c, h0, hc⟩ := hall u (List.mem_cons_self u rest)
    unfold fetchUrls
    rw [fetchWithRetry_nonretryable http u c h0 hc]
    exact ih (fun v hv => hall v (List.mem_cons_of_mem u hv))

/-- Caller-side mutations aimed at a fixed address `r` leave both the
`cacheRef` field and the object at any other address unchanged. -/
theorem foldMutate_fixed (r : Nat) (fs : List (Cache → Cache)) :
    ∀ hh : Heap, hh.cacheRef ≠ r →
      (fs.foldl (fun x f => mutateAt x r f) hh).cacheRef = hh.cacheRef ∧
      heapGet (fs.foldl (fun x f => mutateAt x r f) hh) hh.cacheRef =
        heapGet hh hh.cacheRef := by
  induction fs with
  | nil => exact fun hh _ => ⟨rfl, rfl⟩
  | cons f rest ih =>
    intro hh hne
    have h2 : heapGet (mutateAt hh r f) hh.cacheRef = heapGet hh hh.cacheRef := by
      unfold mutateAt heapGet
      simp [List.getD_eq_getElem?_getD, List.getElem?_set_ne (Ne.symm hne)]
    obtain ⟨ih1, ih2⟩ := ih (mutateAt hh r f) hne
    refine ⟨ih1, ?_⟩
    rw [List.foldl_cons]
    exact ih2.trans h2

/-- In removal mode, `_remove_section` decomposes every element sibling
whose name does not start with `"h"`. -/
theorem headingPass_some_drops (p : String) (lvl : Nat) :
    ∀ mid : List Node, (∀ n ∈ mid, isNonHeadingEl n = true) →
    ∀ rest : List Node,
      headingPassList p (some lvl) (mid ++ rest) =
        headingPassList p (some lvl) rest := by
  intro mid
  induction mid with
  | nil => intro _ rest; rw [List.nil_append]
  | cons n ms ih =>
    intro hmid rest
    have hn := hmid n (List.mem_cons_self n ms)
    cases n with
    | txt s => rw [isNonHeadingEl] at hn; exact absurd hn Bool.false_ne_true
    | el name cls id role kids =>
      rw [isNonHeadingEl, Bool.not_eq_true'] at hn
      rw [List.cons_append, headingPassList, hn, if_neg Bool.false_ne_true]
      exact ih (fun m hm => hmid m (List.mem_cons_of_mem _ hm)) rest

/-- The heading pass on a sibling list whose head is a matched level-2
heading with text `t`: the heading is removed, the plain element siblings
up to the next `h1`/`h2` heading are decomposed, and that heading together
with everything after it survives (it is clean). -/
theorem headingPass_match (p : String) (hmem : p ∈ deprecatedPatterns)
    (cls2 : List String) (id2 role2 t : String) (mid : List Node)
    (hmid : ∀ n ∈ mid, isNonHeadingEl n = true)
    (nxtName : String) (hn : nxtName = "h1" ∨ nxtName = "h2")
    (clsN : List String) (idN roleN : String) (nxtKids suffix : List Node)
    (hclean : cleanKids (Node.el nxtName clsN idN roleN nxtKids :: suffix)
      = true)
    (hmatch : patMatch p t = true) :
    headingPassList p none (Node.el "h2" cls2 id2 role2 [Node.txt t] ::
      (mid ++ Node.el nxtName clsN idN roleN nxtKids :: suffix)) =
    .ok (Node.el nxtName clsN idN roleN nxtKids :: suffix) := by
  have htext : getTexts [Node.txt t] = t := by
    rw [getTexts, getText, getTexts, String.append_empty]
  have hcond : (headingNames.contains "h2" && patMatch p t) = true := by
    rw [hmatch, Bool.and_true]; decide
  rw [headingPassList, htext, hcond, if_pos rfl]
  show headingPassList p (some 2)
    (mid ++ Node.el nxtName clsN idN roleN nxtKids :: suffix) = _
  rw [headingPass_some_drops p 2 mid hmid]
  rcases hn with h | h <;> subst h
  · rw [headingPassList, show pyStartsWith "h1" "h" = true from by decide,
      if_pos rfl]
    show headingPassList p none
      (Node.el "h1" clsN idN roleN nxtKids :: suffix) = _
    exact headingPass_clean_id p hmem _ hclean
  · rw [headingPassList, show pyStartsWith "h2" "h" = true from by decide,
      if_pos rfl]
    show headingPassList p none
      (Node.el "h2" clsN idN roleN nxtKids :: suffix) = _
    exact headingPass_clean_id p hmem _ hclean

/-- The heading pass on the same list for a pattern the heading's text does
not match is the identity (everything else is clean). -/
theorem headingPass_nomatch (p : String) (hmem : p ∈ deprecatedPatterns)
    (cls2 : List String) (id2 role2 t : String) (tail : List Node)
    (hclean : cleanKids tail = true) (hnm : patMatch p t = false) :
    headingPassList p none (Node.el "h2" cls2 id2 role2 [Node.txt t] :: tail)
      = .ok (Node.el "h2" cls2 id2 role2 [Node.txt t] :: tail) := by
  have htext : getTexts [Node.txt t] = t := by
    rw [getTexts, getText, getTexts, String.append_empty]
  have hcond : (headingNames.contains "h2" && patMatch p t) = false := by
    rw [hnm, Bool.and_false]
  have hkids : headingPassList p none [Node.txt t] = .ok [Node.txt t] := by
    rw [headingPassList, headingPassList, exBind_ok]
  rw [headingPassList, htext, hcond, if_neg Bool.false_ne_true, hkids,
    exBind_ok, headingPass_clean_id p hmem tail hclean, exBind_ok]

/-- The container pass keeps the level-2 heading head (not a container) and
is the identity on the clean tail. -/
theorem containerPass_head (p : String) (hmem : p ∈ deprecatedPatterns)
    (cls2 : List String) (id2 role2 t : String) (tail : List Node)
    (hclean : cleanKids tail = true) :
    containerPassList p (Node.el "h2" cls2 id2 role2 [Node.txt t] :: tail)
      = Node.el "h2" cls2 id2 role2 [Node.txt t] :: tail := by
  have hcont : containerNames.contains "h2" = false := by decide
  rw [containerPassList, hcont, Bool.false_and, if_neg Bool.false_ne_true,
    containerPassList, containerPassList,
    containerPass_clean_id p hmem tail hclean]

/-- The badge pass likewise keeps the heading head and the clean tail. -/
theorem badgePass_head (p : String) (hmem : p ∈ deprecatedPatterns)
    (cls2 : List String) (id2 role2 t : String) (tail : List Node)
    (hclean : cleanKids tail = true) :
    badgePassList p (Node.el "h2" cls2 id2 role2 [Node.txt t] :: tail)
      = Node.el "h2" cls2 id2 role2 [Node.txt t] :: tail := by
  have hcont : containerNames.contains "h2" = false := by decide
  rw [badgePassList, hcont, Bool.false_and, if_neg Bool.false_ne_true,
    badgePassList, badgePassList, badgePass_clean_id p hmem tail hclean]

/-! ### Blank-line cleanup lemmas (claim C8) -/

theorem count_nl_of_has3 : ∀ l : List Char, has3 l = true → 3 ≤ l.count '\n'
  | [], h => by rw [has3] at h; exact absurd h Bool.false_ne_true
  | c :: t, h => by
    rw [has3, Bool.or_eq_true] at h
    cases h with
    | inl hhead =>
      rw [Bool.and_eq_true] at hhead
      have hc : c = '\n' := of_decide_eq_true hhead.1
      cases t with
      | nil => rw [startsNN] at hhead; exact absurd hhead.2 Bool.false_ne_true
      | cons d t' =>
        cases t' with
        | nil => rw [startsNN] at hhead; exact absurd hhead.2 Bool.false_ne_true
        | cons e t'' =>
          have h2 := hhead.2
          rw [startsNN, Bool.and_eq_true] at h2
          have hd : d = '\n' := of_decide_eq_true h2.1
          have he : e = '\n' := of_decide_eq_true h2.2
          subst hc; subst hd; subst he
          simp [List.count_cons]
    | inr htail =>
      have := count_nl_of_has3 t htail
      simp only [List.count_cons]
      omega

theorem startsNN_false_of_not_mem (l : List Char) (h : '\n' ∉ l) :
    startsNN l = false := by
  cases l with
  | nil => rw [startsNN]
  | cons c t =>
    cases t with
    | nil => rw [startsNN]
    | cons d t' =>
      have hc : c ≠ '\n' := fun e => h (e ▸ List.mem_cons_self c _)
      rw [startsNN, decide_eq_false hc, Bool.false_and]

theorem has3_false_of_not_mem (l : List Char) (h : '\n' ∉ l) :
    has3 l = false := by
  induction l with
  | nil => rw [has3]
  | cons c t ih =>
    have hc : c ≠ '\n' := fun e => h (e ▸ List.mem_cons_self c t)
    rw [has3, decide_eq_false hc, Bool.false_and, Bool.false_or]
    exact ih (fun m => h (List.mem_cons_of_mem c m))

theorem has3_append_left_no_nl (a b : List Char) (ha : '\n' ∉ a)
    (hb : has3 b = false) : has3 (a ++ b) = false := by
  induction a with
  | nil => rw [List.nil_append]; exact hb
  | cons x a' ih =>
    have hx : x ≠ '\n' := fun e => ha (e ▸ List.mem_cons_self x a')
    rw [List.cons_append, has3, decide_eq_false hx, Bool.false_and,
      Bool.false_or]
    exact ih (fun m => ha (List.mem_cons_of_mem x m))

theorem startsNN_append_sep (a' b : List Char) (c : Char) (hc : c ≠ '\n')
    (h : startsNN a' = false) : startsNN (a' ++ c :: b) = false := by
  cases a' with
  | nil =>
    rw [List.nil_append]
    cases b with
    | nil => rw [startsNN]
    | cons d b' => rw [startsNN, decide_eq_false hc, Bool.false_and]
  | cons y a'' =>
    cases a'' with
    | nil =>
      rw [List.cons_append, List.nil_append, startsNN, decide_eq_false hc,
        Bool.and_false]
    | cons z rest =>
      rw [List.cons_append, List.cons_append, startsNN]
      rw [startsNN] at h
      exact h

theorem has3_append_sep (a b : List Char) (c : Char) (hc : c ≠ '\n')
    (ha : has3 a = false) (hb : has3 b = false) :
    has3 (a ++ c :: b) = false := by
  induction a with
  | nil =>
    rw [List.nil_append, has3, decide_eq_false hc, Bool.false_and,
      Bool.false_or]
    exact hb
  | cons x a' ih =>
    rw [has3, Bool.or_eq_false_iff] at ha
    rw [List.cons_append, has3, ih ha.2, Bool.or_false]
    by_cases hx : x = '\n'
    · subst hx
      have ha1 := ha.1
      rw [decide_eq_true rfl, Bool.true_and] at ha1
      rw [decide_eq_true rfl, Bool.true_and]
      exact startsNN_append_sep a' b c hc ha1
    · rw [decide_eq_false hx, Bool.false_and]

theorem emitRun_no3 (w : List Char) : has3 (emitRun w) = false := by
  unfold emitRun
  by_cases hcnt : 3 ≤ w.count '\n'
  · rw [if_pos hcnt]
    have hA : '\n' ∉ w.takeWhile (fun c => !(c = '\n')) := by
      intro hm
      have := List.mem_takeWhile_imp hm
      simp at this
    have hB : '\n' ∉ (w.reverse.takeWhile (fun c => !(c = '\n'))).reverse := by
      intro hm
      rw [List.mem_reverse] at hm
      have := List.mem_takeWhile_imp hm
      simp at this
    apply has3_append_left_no_nl _ _ hA
    have hsB : startsNN
        ((w.reverse.takeWhile (fun c => !(c = '\n'))).reverse) = false :=
      startsNN_false_of_not_mem _ hB
    have hsNB : startsNN
        ('\n' :: (w.reverse.takeWhile (fun c => !(c = '\n'))).reverse)
        = false := by
      cases hBl : (w.reverse.takeWhile (fun c => !(c = '\n'))).reverse with
      | nil => rw [startsNN]
      | cons d B' =>
        rw [hBl] at hB
        have hd : d ≠ '\n' := fun e => hB (e ▸ List.mem_cons_self d B')
        rw [startsNN, decide_eq_false hd, Bool.and_false]
    rw [has3, has3, hsNB, hsB, has3_false_of_not_mem _ hB]
    simp
  · rw [if_neg hcnt]
    cases hh : has3 w with
    | false => rfl
    | true => exact absurd (count_nl_of_has3 w hh) hcnt

theorem collapseGo_no3 : ∀ (l acc : List Char),
    has3 (collapseRunsGo acc l) = false
  | [], acc => by rw [collapseRunsGo]; exact emitRun_no3 _
  | c :: cs, acc => by
    rw [collapseRunsGo]
    by_cases hws : isPyWS c = true
    · rw [if_pos hws]; exact collapseGo_no3 cs (c :: acc)
    · rw [if_neg hws]
      have hc : c ≠ '\n' := by
        intro e; subst e; exact hws (by decide)
      exact has3_append_sep _ _ c hc (emitRun_no3 _) (collapseGo_no3 cs [])

theorem has3_dropWhile (p : Char → Bool) :
    ∀ l : List Char, has3 l = false → has3 (l.dropWhile p) = false
  | [], h => by rw [List.dropWhile_nil]; exact h
  | c :: t, h => by
    rw [has3, Bool.or_eq_false_iff] at h
    rw [List.dropWhile_cons]
    by_cases hp : p c = true
    · rw [if_pos hp]; exact has3_dropWhile p t h.2
    · rw [if_neg hp, has3, h.1, h.2, Bool.false_or]

theorem has3_iff_ex (l : List Char) :
    has3 l = true ↔ ∃ a b, l = a ++ '\n' :: '\n' :: '\n' :: b := by
  constructor
  · induction l with
    | nil => intro h; rw [has3] at h; exact absurd h Bool.false_ne_true
    | cons c t ih =>
      intro h
      rw [has3, Bool.or_eq_true] at h
      cases h with
      | inl hh =>
        rw [Bool.and_eq_true] at hh
        have hc : c = '\n' := of_decide_eq_true hh.1
        cases t with
        | nil => rw [startsNN] at hh; exact absurd hh.2 Bool.false_ne_true
        | cons d t' =>
          cases t' with
          | nil => rw [startsNN] at hh; exact absurd hh.2 Bool.false_ne_true
          | cons e t'' =>
            have h2 := hh.2
            rw [startsNN, Bool.and_eq_true] at h2
            refine ⟨[], t'', ?_⟩
            rw [hc, of_decide_eq_true h2.1, of_decide_eq_true h2.2,
              List.nil_append]
      | inr ht =>
        obtain ⟨a, b, hab⟩ := ih ht
        exact ⟨c :: a, b, by rw [hab, List.cons_append]⟩
  · rintro ⟨a, b, rfl⟩
    induction a with
    | nil => rw [List.nil_append, has3, startsNN]; simp
    | cons x a' ih => rw [List.cons_append, has3, ih, Bool.or_true]

theorem has3_reverse (l : List Char) : has3 l.reverse = has3 l := by
  cases hl : has3 l with
  | true =>
    obtain ⟨a, b, rfl⟩ := (has3_iff_ex l).mp hl
    refine (has3_iff_ex _).mpr ⟨b.reverse, a.reverse, ?_⟩
    simp [List.reverse_append]
  | false =>
    cases hr : has3 l.reverse with
    | false => rfl
    | true =>
      obtain ⟨a, b, hab⟩ := (has3_iff_ex _).mp hr
      have hl2 : l = b.reverse ++ '\n' :: '\n' :: '\n' :: a.reverse := by
        rw [← List.reverse_reverse l, hab]
        simp [List.reverse_append]
      exact absurd ((has3_iff_ex l).mpr ⟨_, _, hl2⟩)
        (by rw [hl]; exact Bool.false_ne_true)

theorem stripChars_no3 (l : List Char) (h : has3 l = false) :
    has3 (stripChars l) = false := by
  unfold stripChars
  rw [has3_reverse]
  apply has3_dropWhile
  rw [has3_reverse]
  exact has3_dropWhile _ _ h

theorem head?_dropWhile (p : Char → Bool) :
    ∀ (l : List Char) (c : Char), (l.dropWhile p).head? = some c →
      p c = false
  | [], c, h => by rw [List.dropWhile_nil] at h; exact absurd h (by simp)
  | x :: t, c, h => by
    rw [List.dropWhile_cons] at h
    by_cases hp : p x = true
    · rw [if_pos hp] at h; exact head?_dropWhile p t c h
    · rw [if_neg hp] at h
      rw [List.head?_cons, Option.some.injEq] at h
      exact Bool.eq_false_iff.mpr (h ▸ hp)

theorem noEdgeWS_stripChars (l : List Char) :
    noEdgeWS (stripChars l) = true := by
  unfold noEdgeWS
  rw [Bool.and_eq_true]
  constructor
  · cases hh : (stripChars l).head? with
    | none => rfl
    | some c =>
      show (!isPyWS c) = true
      rw [Bool.not_eq_true']
      unfold stripChars at hh
      rw [List.head?_reverse] at hh
      have hBne : ((l.dropWhile isPyWS).reverse.dropWhile isPyWS) ≠ [] := by
        intro he; rw [he] at hh; exact absurd hh (by simp)
      obtain ⟨pre, hpre⟩ := List.dropWhile_suffix
        (l := (l.dropWhile isPyWS).reverse) (p := isPyWS)
      have hlast : ((l.dropWhile isPyWS).reverse).getLast? = some c := by
        rw [← hpre, List.getLast?_append_of_ne_nil pre hBne]
        exact hh
      rw [List.getLast?_reverse] at hlast
      exact head?_dropWhile isPyWS l c hlast
  · cases hh : (stripChars l).getLast? with
    | none => rfl
    | some c =>
      show (!isPyWS c) = true
      rw [Bool.not_eq_true']
      unfold stripChars at hh
      rw [List.getLast?_reverse] at hh
      exact head?_dropWhile isPyWS _ c hh

/-- The whitespace-cleanup of `parse_html` evaluated for a markdown
rendering with exactly two consecutive blank lines (it yields one). -/
theorem parseHtml_two_blank_eval :
    parseHtml c8MdTwoBlank c8Soup false = .ok "x\n\ny" := by
  have h1 : decomposeAll unwantedNames c8Soup = c8Soup := by
    simp +decide [decomposeAll, decomposeAllList, unwantedNames, c8Soup]
  have h2 : selectMainContent c8Soup =
      .el "body" [] "" "" [.txt "hello"] := by
    simp +decide [selectMainContent, selectFirst, findFirstNode,
      findFirstList, mainSelectors, c8Soup, opFirst_some, opFirst_none]
  unfold parseHtml
  rw [if_neg Bool.false_ne_true, h1, h2, exBind_ok]
  decide

/-! ## Claim theorems -/

/-- C1 (code bug): with two URLs where `u1` succeeds and `u2` exhausts its
retries on HTTP 500, the per-URL exhaustion is re-raised
(`_fetch_with_retry` line 160) instead of being dropped, so `_fetch_source`
fails for the whole source and the orchestrator caches an error placeholder
— even though `u1` succeeded.  This contradicts the docstring of
`_fetch_with_retry` ("Content as string, or None if all retries failed")
and the spec ("any URL fetch whose terminal result is an error is dropped
... provided at least one URL succeeds"). -/
theorem c1_retry_exhaustion_fatal :
    (fetchWithRetry httpOkThenFail "u1").res = .ok (some "content A") ∧
    fetchSource passNormalizers httpOkThenFail 0 srcTwoUrls =
      .error (.httpStatusError 500) ∧
    getCachedDoc (fetchAllDocs passNormalizers httpOkThenFail 0 [srcTwoUrls])
      "twodocs" =
      some (placeholderDoc 0 srcTwoUrls (.httpStatusError 500)) ∧
    (placeholderDoc 0 srcTwoUrls (.httpStatusError 500)).error ≠ none := by
  refine ⟨rfl, rfl, rfl, by decide⟩

/-- C2: at every suspension point of a refresh cycle, a reader observes
either the complete prior catalog or the complete new catalog, never a
partial or mixed one: the only cache write of `fetch_all_docs` is the
rebuild block (lines 52-68), which contains no `await` and is therefore a
single atomic step of the cooperative scheduler. -/
theorem c2_catalog_atomicity (N : Normalizers) (http : Http) (now : Nat)
    (sources : List SourceCfg) (old : Cache) (k : Nat) :
    cacheAfter N http now sources old k = old ∨
    cacheAfter N http now sources old k = fetchAllDocs N http now sources := by
  rcases k with _ | _ | _ | n
  · exact Or.inl rfl
  · exact Or.inl rfl
  · exact Or.inl rfl
  · right
    simp [cacheAfter, refreshProgram, refreshStepEffect, List.take_nil]

/-- C3 (code bug): `parse_html` (and hence `parse_gitlab_repo`) raises
`ValueError` out of `_remove_section` when a deprecated heading is followed
by an `hr` sibling: line 212 treats every tag name starting with `"h"` as a
heading and line 213 evaluates `int("hr"[1])`.  This contradicts the spec's
guarantee that normalization never raises and degrades to an inline error
block. -/
theorem c3_parse_html_raises :
    parseHtml mdModel c3Soup true =
      .error (.valueError ("invalid literal for int() with base 10: r")) ∧
    parseGitlabRepo mdModel c3Soup true =
      .error (.valueError ("invalid literal for int() with base 10: r")) := by
  have h1 : decomposeAll unwantedNames c3Soup = c3Soup := by
    simp +decide [decomposeAll, decomposeAllList, unwantedNames, c3Soup]
  have h2 : selectMainContent c3Soup = c3Body := by
    simp +decide [selectMainContent, selectFirst, findFirstNode,
      findFirstList, mainSelectors, c3Soup, c3Body, opFirst_some,
      opFirst_none]
  have h3 : removeDeprecatedSections c3Body =
      .error (.valueError ("invalid literal for int() with base 10: r")) := by
    simp +decide [c3Body, removeDeprecatedSections, removeDeprecatedList,
      deprecatedPatterns, headingPassList, headingLevelOf, patMatch,
      pyStartsWith, getText, getTexts, headingNames, exBind_ok, exBind_error]
  have h : parseHtml mdModel c3Soup true =
      .error (.valueError ("invalid literal for int() with base 10: r")) := by
    unfold parseHtml
    rw [if_pos rfl, h1, h2, h3]
    exact rfl
  exact ⟨h, by unfold parseGitlabRepo; exact h⟩

/-- C6 (counterexample): with a bare text node among the siblings following
the matched deprecated heading, `_remove_section` keeps it (a
`NavigableString` has no `decompose` attribute, parsers.py line 217), so
not every following sibling up to the next heading is removed. -/
theorem c6_counterexample :
    removeDeprecatedSections c6MainCounter =
      .ok (.el "main" [] "" ""
        [.txt "stray text",
         .el "h2" [] "" "" [.txt "Next Section"],
         .el "p" [] "" "" [.txt "kept body"]]) ∧
    removeDeprecatedSections c6MainCounter ≠
      .ok (.el "main" [] "" ""
        [.el "h2" [] "" "" [.txt "Next Section"],
         .el "p" [] "" "" [.txt "kept body"]]) := by
  have hA : headingPassList "deprecat" none
      [Node.el "h2" [] "" "" [Node.txt "Deprecated Feature"],
       Node.txt "stray text",
       Node.el "p" [] "" "" [Node.txt "old body"],
       Node.el "h2" [] "" "" [Node.txt "Next Section"],
       Node.el "p" [] "" "" [Node.txt "kept body"]] =
      .ok [Node.txt "stray text",
        Node.el "h2" [] "" "" [Node.txt "Next Section"],
        Node.el "p" [] "" "" [Node.txt "kept body"]] := by
    simp +decide [headingPassList, headingLevelOf, patMatch, pyStartsWith,
      getText, getTexts, headingNames, exBind_ok, exBind_error]
  have hB : ∀ pat : String, containerPassList pat
      [Node.txt "stray text",
        Node.el "h2" [] "" "" [Node.txt "Next Section"],
        Node.el "p" [] "" "" [Node.txt "kept body"]] =
      [Node.txt "stray text",
        Node.el "h2" [] "" "" [Node.txt "Next Section"],
        Node.el "p" [] "" "" [Node.txt "kept body"]] := by
    intro pat
    simp +decide [containerPassList, containerNames]
  have hC : ∀ pat : String, badgePassList pat
      [Node.txt "stray text",
        Node.el "h2" [] "" "" [Node.txt "Next Section"],
        Node.el "p" [] "" "" [Node.txt "kept body"]] =
      [Node.txt "stray text",
        Node.el "h2" [] "" "" [Node.txt "Next Section"],
        Node.el "p" [] "" "" [Node.txt "kept body"]] := by
    intro pat
    simp +decide [badgePassList, containerNames]
  have hD : headingPassList "legacy" none
      [Node.txt "stray text",
        Node.el "h2" [] "" "" [Node.txt "Next Section"],
        Node.el "p" [] "" "" [Node.txt "kept body"]] =
      .ok [Node.txt "stray text",
        Node.el "h2" [] "" "" [Node.txt "Next Section"],
        Node.el "p" [] "" "" [Node.txt "kept body"]] := by
    simp +decide [headingPassList, headingLevelOf, patMatch, pyStartsWith,
      getText, getTexts, headingNames, exBind_ok, exBind_error]
  have hE : headingPassList "obsolete" none
      [Node.txt "stray text",
        Node.el "h2" [] "" "" [Node.txt "Next Section"],
        Node.el "p" [] "" "" [Node.txt "kept body"]] =
      .ok [Node.txt "stray text",
        Node.el "h2" [] "" "" [Node.txt "Next Section"],
        Node.el "p" [] "" "" [Node.txt "kept body"]] := by
    simp +decide [headingPassList, headingLevelOf, patMatch, pyStartsWith,
      getText, getTexts, headingNames, exBind_ok, exBind_error]
  have h : removeDeprecatedSections c6MainCounter =
      .ok (.el "main" [] "" ""
        [.txt "stray text",
         .el "h2" [] "" "" [.txt "Next Section"],
         .el "p" [] "" "" [.txt "kept body"]]) := by
    unfold c6MainCounter removeDeprecatedSections
    simp only [deprecatedPatterns]
    simp only [removeDeprecatedList]
    rw [hA, exBind_ok, hB "deprecat", hC "deprecat", hD, exBind_ok,
      hB "legacy", hC "legacy", hE, exBind_ok,
      hB "obsolete", hC "obsolete", exBind_ok]
  refine ⟨h, ?_⟩
  rw [h]
  simp

/-- C6 (amended): for a selected main-content element whose children are a
level-2 heading with pattern-matching text `t`, then intervening sibling
content consisting of element nodes whose names do not start with `"h"`,
then a heading of level `≤ 2`, then further content, where no node outside
the matched section triggers any deprecated pattern (text, class, id or
badge), stripping removes the matched heading and every intervening element
sibling and retains the next heading and everything after it.  (Bare text
siblings are not removed — see the counterexample — and an intervening tag
like `hr` would raise instead.) -/
theorem c6_deprecated_section_removal
    (cls2 : List String) (id2 role2 t : String) (mid : List Node)
    (nxtName : String) (clsN : List String) (idN roleN : String)
    (nxtKids suffix : List Node)
    (rootName : String) (rootCls : List String) (rootId rootRole : String)
    (hmatch : matchesAnyPat t = true)
    (hmid : ∀ n ∈ mid, cleanNode n = true ∧ isNonHeadingEl n = true)
    (hnxt : nxtName = "h1" ∨ nxtName = "h2")
    (hnclean : cleanNode (.el nxtName clsN idN roleN nxtKids) = true)
    (hsuffix : cleanKids suffix = true) :
    removeDeprecatedSections (.el rootName rootCls rootId rootRole
      (.el "h2" cls2 id2 role2 [.txt t] ::
        (mid ++ .el nxtName clsN idN roleN nxtKids :: suffix))) =
    .ok (.el rootName rootCls rootId rootRole
      (.el nxtName clsN idN roleN nxtKids :: suffix)) := by
  have hm1 : "deprecat" ∈ deprecatedPatterns := by decide
  have hm2 : "legacy" ∈ deprecatedPatterns := by decide
  have hm3 : "obsolete" ∈ deprecatedPatterns := by decide
  have hmidNE : ∀ n ∈ mid, isNonHeadingEl n = true := fun n hn => (hmid n hn).2
  have hcleanNx :
      cleanKids (Node.el nxtName clsN idN roleN nxtKids :: suffix) = true := by
    rw [cleanKids_cons, hnclean, hsuffix, Bool.and_self]
  have hcleanTail :
      cleanKids (mid ++ Node.el nxtName clsN idN roleN nxtKids :: suffix)
        = true := by
    rw [cleanKids_append, hcleanNx,
      cleanKids_of_forall mid (fun n hn => (hmid n hn).1), Bool.and_self]
  have hsub23 : ∀ p ∈ (["legacy", "obsolete"] : List String),
      p ∈ deprecatedPatterns := by decide
  have hsub3 : ∀ p ∈ (["obsolete"] : List String),
      p ∈ deprecatedPatterns := by decide
  rw [removeDeprecatedSections,
    show deprecatedPatterns = ["deprecat", "legacy", "obsolete"] from rfl,
    removeDeprecatedList]
  by_cases h1 : patMatch "deprecat" t = true
  · rw [headingPass_match "deprecat" hm1 cls2 id2 role2 t mid hmidNE nxtName
      hnxt clsN idN roleN nxtKids suffix hcleanNx h1, exBind_ok,
      containerPass_clean_id "deprecat" hm1 _ hcleanNx,
      badgePass_clean_id "deprecat" hm1 _ hcleanNx,
      removeDeprecated_clean_id ["legacy", "obsolete"] hsub23 _ hcleanNx,
      exBind_ok]
  · have h1f : patMatch "deprecat" t = false := Bool.eq_false_iff.mpr h1
    rw [headingPass_nomatch "deprecat" hm1 cls2 id2 role2 t _ hcleanTail h1f,
      exBind_ok,
      containerPass_head "deprecat" hm1 cls2 id2 role2 t _ hcleanTail,
      badgePass_head "deprecat" hm1 cls2 id2 role2 t _ hcleanTail,
      removeDeprecatedList]
    by_cases h2 : patMatch "legacy" t = true
    · rw [headingPass_match "legacy" hm2 cls2 id2 role2 t mid hmidNE nxtName
        hnxt clsN idN roleN nxtKids suffix hcleanNx h2, exBind_ok,
        containerPass_clean_id "legacy" hm2 _ hcleanNx,
        badgePass_clean_id "legacy" hm2 _ hcleanNx,
        removeDeprecated_clean_id ["obsolete"] hsub3 _ hcleanNx,
        exBind_ok]
    · have h2f : patMatch "legacy" t = false := Bool.eq_false_iff.mpr h2
      rw [headingPass_nomatch "legacy" hm2 cls2 id2 role2 t _ hcleanTail h2f,
        exBind_ok,
        containerPass_head "legacy" hm2 cls2 id2 role2 t _ hcleanTail,
        badgePass_head "legacy" hm2 cls2 id2 role2 t _ hcleanTail,
        removeDeprecatedList]
      have h3 : patMatch "obsolete" t = true := by
        have hany := hmatch
        unfold matchesAnyPat at hany
        rcases List.any_eq_true.mp hany with ⟨q, hq, hpq⟩
        simp only [deprecatedPatterns, List.mem_cons,
          List.not_mem_nil, or_false] at hq
        rcases hq with rfl | rfl | rfl
        · rw [h1f] at hpq; exact absurd hpq Bool.false_ne_true
        · rw [h2f] at hpq; exact absurd hpq Bool.false_ne_true
        · exact hpq
      rw [headingPass_match "obsolete" hm3 cls2 id2 role2 t mid hmidNE nxtName
        hnxt clsN idN roleN nxtKids suffix hcleanNx h3, exBind_ok,
        containerPass_clean_id "obsolete" hm3 _ hcleanNx,
        badgePass_clean_id "obsolete" hm3 _ hcleanNx,
        removeDeprecatedList, exBind_ok]

/-- Witness for C6 at the spec's own test scenario: a deprecated level-2
heading, one paragraph, then a retained level-2 heading and its content. -/
theorem c6_witness :
    removeDeprecatedSections (.el "main" [] "" ""
      [.el "h2" [] "" "" [.txt "Deprecated Feature"],
       .el "p" [] "" "" [.txt "old body"],
       .el "h2" [] "" "" [.txt "Next Section"],
       .el "p" [] "" "" [.txt "kept body"]]) =
    .ok (.el "main" [] "" ""
      [.el "h2" [] "" "" [.txt "Next Section"],
       .el "p" [] "" "" [.txt "kept body"]]) := by
  have hmid : ∀ n ∈ [Node.el "p" [] "" "" [Node.txt "old body"]],
      cleanNode n = true ∧ isNonHeadingEl n = true := by
    intro n hn
    rw [List.mem_singleton] at hn
    subst hn
    constructor
    · simp +decide [cleanNode, cleanKids, getTexts, getText, matchesAnyPat,
        patMatch, deprecatedPatterns, headingNames, containerNames,
        badgeNames]
    · decide
  have hnclean : cleanNode
      (Node.el "h2" [] "" "" [Node.txt "Next Section"]) = true := by
    simp +decide [cleanNode, cleanKids, getTexts, getText, matchesAnyPat,
      patMatch, deprecatedPatterns, headingNames, containerNames, badgeNames]
  have hsuffix : cleanKids [Node.el "p" [] "" "" [Node.txt "kept body"]]
      = true := by
    simp +decide [cleanNode, cleanKids, getTexts, getText, matchesAnyPat,
      patMatch, deprecatedPatterns, headingNames, containerNames, badgeNames]
  exact c6_deprecated_section_removal [] "" "" "Deprecated Feature"
    [Node.el "p" [] "" "" [Node.txt "old body"]] "h2" [] "" ""
    [Node.txt "Next Section"] [Node.el "p" [] "" "" [Node.txt "kept body"]]
    "main" [] "" "" (by decide) hmid (Or.inr rfl) hnclean hsuffix

/-- C8 (counterexample): a rendered markdown with exactly two consecutive
blank lines (`x\n\n\ny`) is not kept: the regex
`\n\s*\n\s*\n+` already matches three newlines, so the normalizer output
carries one blank line instead. -/
theorem c8_counterexample :
    parseHtml c8MdTwoBlank c8Soup false = .ok "x\n\ny" ∧
    parseHtml c8MdTwoBlank c8Soup false ≠ .ok "x\n\n\ny" :=
  ⟨parseHtml_two_blank_eval, by rw [parseHtml_two_blank_eval]; decide⟩

/-- C8 (amended): every `parse_html` output has every run of two or more
consecutive blank lines (three or more newlines, possibly with other
whitespace between them) collapsed — no three consecutive newlines remain —
and carries no leading or trailing whitespace; a run of five newlines
collapses to exactly one blank line, and a single blank line is kept. -/
theorem c8_blank_line_cleanup (mdF : Node → String) (soup : Node)
    (strip : Bool) (out : String)
    (h : parseHtml mdF soup strip = .ok out) :
    has3 out.toList = false ∧ noEdgeWS out.toList = true ∧
    collapseBlankRuns "a\n\n\n\n\nb" = "a\n\nb" ∧
    collapseBlankRuns "a\n\nb" = "a\n\nb" := by
  unfold parseHtml at h
  cases hx : (if strip then
      removeDeprecatedSections (selectMainContent
        (decomposeAll unwantedNames soup))
    else .ok (selectMainContent (decomposeAll unwantedNames soup))) with
  | error e => rw [hx, exBind_error] at h; exact absurd h (by simp)
  | ok m =>
    rw [hx, exBind_ok] at h
    simp only [Except.ok.injEq] at h
    subst h
    refine ⟨?_, ?_, by decide, by decide⟩
    · show has3 (stripChars (collapseRunsGo [] (mdF m).toList)) = false
      exact stripChars_no3 _ (collapseGo_no3 _ [])
    · show noEdgeWS (stripChars (collapseRunsGo [] (mdF m).toList)) = true
      exact noEdgeWS_stripChars _

/-- Witness for C8 at the concrete two-blank-line rendering. -/
theorem c8_witness :
    has3 (String.toList "x\n\ny") = false ∧
    noEdgeWS (String.toList "x\n\ny") = true ∧
    collapseBlankRuns "a\n\n\n\n\nb" = "a\n\nb" ∧
    collapseBlankRuns "a\n\nb" = "a\n\nb" :=
  c8_blank_line_cleanup c8MdTwoBlank c8Soup false "x\n\ny"
    parseHtml_two_blank_eval

/-- C4 (counterexample): a source whose single URL terminally fails by
exhausting its retries on HTTP 500 makes aggregation fail with the
re-raised HTTP error, not with the `NoContentFetched` (`ValueError`)
failure the claim requires. -/
theorem c4_counterexample :
    fetchSource passNormalizers httpAlways500 0 srcOneUrl =
      .error (.httpStatusError 500) ∧
    fetchSource passNormalizers httpAlways500 0 srcOneUrl ≠
      .error (.valueError ("No content fetched for " ++ srcOneUrl.tool_name)) :=
  ⟨rfl, by decide⟩

/-- C4 (amended): when the URL list is empty or every URL fails
non-retryably (HTTP 404/403/401), aggregation fails with the
`NoContentFetched` `ValueError`, and the orchestrator caches a placeholder
document carrying that message as `error`, `size = 0`, an error-banner
content, and the spec's declared display name, description and URLs.
(When an URL instead exhausts retryable failures, aggregation fails with
the re-raised fetch error — see the counterexample — and the orchestrator
builds the same placeholder shape from that error.) -/
theorem c4_no_content_placeholder (N : Normalizers) (http : Http) (now : Nat)
    (src : SourceCfg)
    (hall : ∀ u ∈ src.urls, ∃ c, http u 0 = .status c ∧
      (c = 404 ∨ c = 403 ∨ c = 401)) :
    fetchSource N http now src =
      .error (.valueError ("No content fetched for " ++ src.tool_name)) ∧
    getCachedDoc (fetchAllDocs N http now [src]) src.tool_name =
      some (placeholderDoc now src
        (.valueError ("No content fetched for " ++ src.tool_name))) ∧
    (placeholderDoc now src
      (.valueError ("No content fetched for " ++ src.tool_name))).size = 0 ∧
    (placeholderDoc now src
        (.valueError ("No content fetched for " ++ src.tool_name))).error =
      some ("No content fetched for " ++ src.tool_name) ∧
    (placeholderDoc now src
        (.valueError ("No content fetched for " ++ src.tool_name))).content =
      "# Error\n\nFailed to fetch documentation: " ++
        ("No content fetched for " ++ src.tool_name) ∧
    (placeholderDoc now src
        (.valueError ("No content fetched for " ++ src.tool_name))).display_name =
      src.display_name.getD src.tool_name ∧
    (placeholderDoc now src
        (.valueError ("No content fetched for " ++ src.tool_name))).description =
      src.description.getD "" ∧
    (placeholderDoc now src
        (.valueError ("No content fetched for " ++ src.tool_name))).urls =
      src.urls := by
  have hfail : fetchSource N http now src =
      .error (.valueError ("No content fetched for " ++ src.tool_name)) := by
    unfold fetchSource
    rw [fetchUrls_all_nonretryable http src.urls hall]
    exact rfl
  refine ⟨hfail, ?_, rfl, rfl, rfl, rfl, rfl, rfl⟩
  unfold fetchAllDocs getCachedDoc
  rw [List.map_singleton, hfail]
  simp [List.find?]

/-- Witness for C4 at a concrete all-404 source. -/
theorem c4_witness :
    fetchSource passNormalizers httpAlways404 0 srcOneUrl =
      .error (.valueError ("No content fetched for " ++ srcOneUrl.tool_name)) ∧
    getCachedDoc (fetchAllDocs passNormalizers httpAlways404 0 [srcOneUrl])
      srcOneUrl.tool_name =
      some (placeholderDoc 0 srcOneUrl
        (.valueError ("No content fetched for " ++ srcOneUrl.tool_name))) :=
  have h := c4_no_content_placeholder passNormalizers httpAlways404 0 srcOneUrl
    (fun _ _ => ⟨404, rfl, Or.inl rfl⟩)
  ⟨h.1, h.2.1⟩

/-- C5: a URL whose first attempt returns HTTP 404 (or 403/401) terminates
the retrying fetcher immediately: its terminal `None` result is produced
after exactly one HTTP attempt, with no backoff sleep and no further
attempt. -/
theorem c5_nonretryable_immediate (http : Http) (url : String) (c : Nat)
    (h0 : http url 0 = .status c) (hc : c = 404 ∨ c = 403 ∨ c = 401) :
    fetchWithRetry http url = ⟨.ok none, 1, []⟩ :=
  fetchWithRetry_nonretryable http url c h0 hc

/-- Witness for C5 at a concrete oracle returning HTTP 404. -/
theorem c5_witness : fetchWithRetry httpAlways404 "u" = ⟨.ok none, 1, []⟩ :=
  c5_nonretryable_immediate httpAlways404 "u" 404 rfl (Or.inl rfl)

/-- C7 (counterexample): a successfully aggregated document whose content
is `és` (2 characters, 3 UTF-8 bytes) has `size = 2`, the character count,
not the byte length the claim requires. -/
theorem c7_counterexample :
    fetchSource passNormalizers httpAccent 0 srcOneUrl = .ok accentDoc ∧
    accentDoc.size ≠ accentDoc.content.utf8ByteSize :=
  ⟨rfl, by decide⟩

/-- C7 (amended): every successfully aggregated document has `size` equal
to the character count (`len` of the Python string, i.e. code points) of
its content, and carries no `error` field. -/
theorem c7_size_is_charcount (N : Normalizers) (http : Http) (now : Nat)
    (src : SourceCfg) (d : Doc)
    (h : fetchSource N http now src = .ok d) :
    d.size = d.content.length ∧ d.error = none := by
  unfold fetchSource at h
  split at h
  · exact absurd h (by simp)
  · split at h
    · exact absurd h (by simp)
    · split at h
      · exact absurd h (by simp)
      · simp only [Except.ok.injEq] at h
        subst h
        exact ⟨rfl, rfl⟩

/-- Witness for C7 at the concrete accent-content source. -/
theorem c7_witness : accentDoc.size = accentDoc.content.length ∧
    accentDoc.error = none :=
  c7_size_is_charcount passNormalizers httpAccent 0 srcOneUrl accentDoc rfl

/-- C9: a lookup for a `toolName` absent from the cache returns `None` and
the tool layer answers with the worded not-found message instead of
raising; before the first refresh the cache is empty, every lookup is
absent, and the list tool reports the not-yet-cached message. -/
theorem c9_cold_cache (cache : Cache) (toolName : String)
    (habsent : getCachedDoc cache toolName = none) :
    executeTool cache toolName =
      "# Error\n\nDocumentation for '" ++ toolName ++
        "' not found in cache. Please restart the server." ∧
    (getCachedDoc initialCache toolName = none) ∧
    executeListDocs initialCache =
      "# Available Flywheel Documentation Sources\n\n" ++
        "*No documentation currently cached. Server may still be starting up.*\n" := by
  refine ⟨?_, rfl, rfl⟩
  unfold executeTool
  rw [habsent]

/-- Witness for C9 at the cold cache and a concrete tool name. -/
theorem c9_witness :
    executeTool initialCache "flywheel_sdk" =
      "# Error\n\nDocumentation for 'flywheel_sdk' not found in cache. " ++
        "Please restart the server." ∧
    (getCachedDoc initialCache "flywheel_sdk" = none) ∧
    executeListDocs initialCache =
      "# Available Flywheel Documentation Sources\n\n" ++
        "*No documentation currently cached. Server may still be starting up.*\n" :=
  c9_cold_cache initialCache "flywheel_sdk" rfl

/-- C10: `get_all_cached_docs` hands out a fresh copy: the returned address
differs from the cache's; after any sequence of caller-side mutations of
the returned dict, the cache still holds its original entries, lookups are
unchanged, and a later `get_all_cached_docs` still lists the original
catalog. -/
theorem c10_listall_returns_copy (h : Heap) (fs : List (Cache → Cache))
    (hwf : h.cacheRef < h.objs.length) (hf : Heap)
    (hrun : hf = fs.foldl
      (fun x f => mutateAt x (getAllCachedDocsH h).2 f)
      (getAllCachedDocsH h).1) :
    (getAllCachedDocsH h).2 ≠ h.cacheRef ∧
    hf.cacheRef = h.cacheRef ∧
    heapGet hf hf.cacheRef = heapGet h h.cacheRef ∧
    (∀ toolName, getCachedDoc (heapGet hf hf.cacheRef) toolName =
      getCachedDoc (heapGet h h.cacheRef) toolName) ∧
    heapGet (getAllCachedDocsH hf).1 (getAllCachedDocsH hf).2 =
      heapGet h h.cacheRef := by
  subst hrun
  have hne : ((getAllCachedDocsH h).1).cacheRef ≠ (getAllCachedDocsH h).2 :=
    Nat.ne_of_lt hwf
  have hcopyread : heapGet (getAllCachedDocsH h).1 h.cacheRef =
      heapGet h h.cacheRef := by
    unfold getAllCachedDocsH heapGet
    simp [List.getD_eq_getElem?_getD, List.getElem?_append, hwf]
  obtain ⟨f1, f2⟩ := foldMutate_fixed (getAllCachedDocsH h).2 fs
    (getAllCachedDocsH h).1 hne
  have hval : heapGet
      (fs.foldl (fun x f => mutateAt x (getAllCachedDocsH h).2 f)
        (getAllCachedDocsH h).1)
      ((fs.foldl (fun x f => mutateAt x (getAllCachedDocsH h).2 f)
        (getAllCachedDocsH h).1).cacheRef) = heapGet h h.cacheRef := by
    rw [f1]
    exact f2.trans hcopyread
  refine ⟨Nat.ne_of_gt hwf, f1, hval, fun t => by rw [hval], ?_⟩
  unfold getAllCachedDocsH heapGet
  rw [List.getD_eq_getElem?_getD]
  simp only [List.getElem?_append, Nat.lt_irrefl, if_false, Nat.sub_self,
    List.getElem?_cons_zero, Option.getD_some]
  exact hval

/-- Witness for C10: a concrete one-entry cache, a caller that clears the
returned copy; the subsequent lookup is unchanged. -/
theorem c10_witness :
    getCachedDoc
      (heapGet
        (List.foldl (fun x f => mutateAt x (getAllCachedDocsH sampleHeap).2 f)
          (getAllCachedDocsH sampleHeap).1 [fun _ => []])
        (List.foldl (fun x f => mutateAt x (getAllCachedDocsH sampleHeap).2 f)
          (getAllCachedDocsH sampleHeap).1 [fun _ => []]).cacheRef)
      "sample" =
    getCachedDoc (heapGet sampleHeap sampleHeap.cacheRef) "sample" :=
  (c10_listall_returns_copy sampleHeap [fun _ => []] (by decide) _ rfl).2.2.2.1
    "sample"

end FlywheelGearMcp
